import Mathlib

/-!
Verification of the kubetest run orchestrator (src/kubetest/main.go).
The Go code is shallowly embedded: each phase of the orchestrator is a
pure Lean function over an explicit record of the outcomes of the
external side effects (subprocess results, deployer operations), and the
observable behaviour (which operations were invoked, in which order,
with which recorded outcome) is modelled as a list of events.
-/

namespace Kubetest

/-- Modelled from the spec: the extract strategy modes live in a source
file that is not part of the analysed sources; per the data model an
extract entry is a (mode, locator) pair with mode drawn from a closed
set that includes the stored-state restore mode named load in main.go. -/
inductive ExtractMode
| releaseArchive
| localPath
| load
deriving DecidableEq, Repr

/-- One entry of the extract specification: a mode plus its option
string, mirroring the extractStrategy value built at main.go line 298. -/
structure extractStrategy where
mode : ExtractMode
option : String
deriving DecidableEq, Repr

/-- Ordered extract specification, mirroring extractStrategies. -/
abbrev extractStrategies := List extractStrategy

/-- The fields of the options struct of main.go that the orchestrator
logic modelled here reads.  The build and stage strategy values are
opaque types from other source files; their enabledness and execution
outcomes are supplied separately through StrategyEnv. -/
structure options where
checkSkew : Bool
deployment : String
down : Bool
dump : String
extract : extractStrategies
federation : Bool
publish : String
save : String
up : Bool
deriving DecidableEq, Repr

/-- The deployer variants returned by getDeployer in main.go. -/
inductive deployer
| bash
| kops
| kubernetesAnywhere
| noneDeploy
deriving DecidableEq, Repr

/-- Modelled from the spec: NewKops lives in a source file that is not
part of the analysed sources; per section 4.2 selecting a valid variant
name returns a non-error handle. -/
def NewKops : Except String deployer := Except.ok deployer.kops

/-- Modelled from the spec: NewKubernetesAnywhere lives in a source file
that is not part of the analysed sources; per section 4.2 selecting a
valid variant name returns a non-error handle. -/
def NewKubernetesAnywhere : Except String deployer :=
Except.ok deployer.kubernetesAnywhere

/-- The switch of getDeployer, main.go lines 163 to 176. -/
def getDeployer (deployment : String) : Except String deployer :=
if deployment == "bash" then Except.ok deployer.bash
else if deployment == "kops" then NewKops
else if deployment == "kubernetes-anywhere" then NewKubernetesAnywhere
else if deployment == "none" then Except.ok deployer.noneDeploy
else Except.error ("Unknown deployment strategy \"" ++ deployment ++ "\"")

/-- The guard of the saveState call, main.go line 258. -/
def saveCondition (o : options) : Bool :=
o.save != "" && ((!o.down && o.up) || (!o.federation && o.up && o.deployment != "none"))

/-- The save condition as the spec states it in section 4.5 step 8: a
save path is configured and either the cluster was brought up without
being torn down, or only a secondary control plane was reconfigured,
that is federation true, up true and deployment equal to none.  Written
from the words of the spec for comparison with saveCondition. -/
def specSaveCondition (o : options) : Bool :=
o.save != "" && ((!o.down && o.up) || (o.federation && o.up && o.deployment == "none"))

/-- The restore-state rewrite performed inside the Extract closure of
acquireKubernetes, main.go lines 294 to 305.  Returns the extract
specification that the subsequent Extract call receives together with
whether loadKubeconfig was invoked. -/
def rewriteForRestore (o : options) : extractStrategies × Bool :=
if o.save != "" then
  if !o.up then ([⟨ExtractMode.load, o.save⟩], false)
  else if o.federation && o.up && (o.deployment == "none") then (o.extract, true)
  else (o.extract, false)
else (o.extract, false)

/-- Enabledness and execution outcome of the three strategies driven by
acquireKubernetes.  The strategy types live in other source files, so
the model takes their enabled flags and the error result of each
execute call as inputs. -/
structure StrategyEnv where
buildEnabled : Bool
buildErr : Option String
stageEnabled : Bool
stageErr : Option String
extractEnabled : Bool
extractErr : Option String
deriving DecidableEq, Repr

/-- Observable outcome of acquireKubernetes: the records appended by
xmlWrap in order, as pairs of strategy name and failure flag; the
extract specification actually passed to Extract, when Extract ran; and
whether loadKubeconfig ran; plus the returned error. -/
structure AcquireResult where
records : List (String × Bool)
executedExtract : Option extractStrategies
kubeconfigLoaded : Bool
err : Option String
deriving DecidableEq, Repr

/-- acquireKubernetes, main.go lines 273 to 314: Build, Stage, Extract
in that order, each gated by its own enabled flag, each wrapped by
xmlWrap which appends a record whether or not the call failed; the
first failing wrapped call returns its error at once.  Before Extract
executes, the closure applies rewriteForRestore to the options. -/
def acquireKubernetes (o : options) (env : StrategyEnv) : AcquireResult :=
if env.buildEnabled && env.buildErr.isSome then
  ⟨[("Build", true)], none, false, env.buildErr⟩
else
  let r0 := if env.buildEnabled then [(("Build" : String), false)] else []
  if env.stageEnabled && env.stageErr.isSome then
    ⟨r0 ++ [("Stage", true)], none, false, env.stageErr⟩
  else
    let r1 := r0 ++ (if env.stageEnabled then [(("Stage" : String), false)] else [])
    if env.extractEnabled then
      let rw := rewriteForRestore o
      ⟨r1 ++ [("Extract", env.extractErr.isSome)], some rw.1, rw.2, env.extractErr⟩
    else
      ⟨r1, none, false, none⟩

/-- The steps the closure handed to xmlWrap in the Extract branch runs,
in source order, main.go lines 290 to 308: the conditional restore
logic first, then the Extract call itself. -/
inductive ExtractStep
| rewrite
| loadKube
| exec
deriving DecidableEq, Repr

/-- Step sequence of the Extract closure for given options. -/
def extractClosureSteps (o : options) : List ExtractStep :=
(if o.save != "" then
  if !o.up then [ExtractStep.rewrite]
  else if o.federation && o.up && (o.deployment == "none") then [ExtractStep.loadKube]
  else []
else []) ++ [ExtractStep.exec]

/-- Modelled from the spec: xmlWrap lives in a source file that is not
part of the analysed sources; per section 4.3 it times the closure it
is given and records that duration.  Given the duration of each step,
the duration recorded for the Extract record is the total duration of
the closure, which in main.go contains the restore rewrite. -/
def recordedExtractDuration (o : options) (d : ExtractStep → Nat) : Nat :=
((extractClosureSteps o).map d).sum

/-- What one pass of the signal handler loop of main.go lines 230 to
244 does: which teardowns it invokes and whether it exits the process. -/
structure SignalOutcome where
fedDownCalled : Bool
deployDownCalled : Bool
exitStatus : Option Nat
deriving DecidableEq, Repr

/-- One iteration of the signal handler body: FedDown is attempted only
when federation is set, deploy.Down is attempted unconditionally
afterwards, and the process exits with status 1 when either attempted
teardown returned an error. -/
def handleSignal (federation : Bool) (fedDownErr deployDownErr : Option String) : SignalOutcome :=
let fedErr := if federation then fedDownErr else none
⟨federation, true, if fedErr.isSome || deployDownErr.isSome then some 1 else none⟩

/-- The two teardown operations the signal handler can invoke. -/
inductive TeardownCall
| fedDown
| deployDown
deriving DecidableEq, Repr

/-- One iteration of the signal handler body with its teardown
invocations kept in source order, main.go lines 233 to 240: FedDown is
invoked exactly when federation is set, then deploy.Down is invoked
unconditionally afterwards — the call sequence does not depend on the
errors the teardowns return, only the exit decision does.  The second
component is the SignalOutcome of the same iteration. -/
def handleSignalTrace (federation : Bool) (fedDownErr deployDownErr : Option String) :
    List TeardownCall × SignalOutcome :=
let fedCalls := if federation then [TeardownCall.fedDown] else []
let fedErr := if federation then fedDownErr else none
(fedCalls ++ [TeardownCall.deployDown],
 ⟨federation, true, if fedErr.isSome || deployDownErr.isSome then some 1 else none⟩)

/-- Whether an iteration of the handler hits the os.Exit call. -/
def tearDownFailed (federation : Bool) (fedDownErr deployDownErr : Option String) : Bool :=
(if federation then fedDownErr else none).isSome || deployDownErr.isSome

/-- The signal handler goroutine: a loop over received signals that
runs handleSignal for each and stops only by exiting the process. -/
def watcherRun (federation : Bool) (fedDownErr deployDownErr : Option String) :
    List Unit → List SignalOutcome
| [] => []
| _ :: rest =>
  let out := handleSignal federation fedDownErr deployDownErr
  if out.exitStatus.isSome then [out]
  else out :: watcherRun federation fedDownErr deployDownErr rest

/-- Timer states per the data model: armed with a remaining duration,
fired with its value not yet consumed, or idle (stopped or drained). -/
inductive TimerState
| idle
| armed (d : Nat)
| firedUndrained
deriving DecidableEq, Repr

/-- The stop-and-drain idiom of main.go lines 193 to 198: Stop the
timer and, when Stop reports the timer already fired, receive the
pending value from its channel. -/
def stopAndDrain : TimerState → TimerState
| TimerState.armed _ => TimerState.idle
| TimerState.firedUndrained => TimerState.idle
| TimerState.idle => TimerState.idle

/-- Reset rearms a timer with a fresh duration. -/
def resetTimer (d : Nat) : TimerState := TimerState.armed d

/-- Both timers start as NewTimer(0), which has fired immediately and
has not been drained when complete begins. -/
def initialTimer : TimerState := TimerState.firedUndrained

/-- The timer setup at the top of complete, main.go lines 193 to 203:
stop and drain terminate, stop and drain interrupt, then rearm the
interrupt timer exactly when the configured timeout is positive.
Returns the resulting interrupt and terminate states. -/
def timerSetup (timeout : Nat) (interruptS terminateS : TimerState) : TimerState × TimerState :=
let t := stopAndDrain terminateS
let i := stopAndDrain interruptS
if timeout > 0 then (resetTimer timeout, t) else (i, t)

/-- Outcomes of the external side effects that the body of complete
performs, one field per fallible phase.  The deployer selection outcome
is determined by the options, so it is not a field here. -/
structure RunEnv where
prepareErr : Option String
acquireErr : Option String
workDirErr : Option String
runErr : Option String
saveErr : Option String
publishErr : Option String
deriving DecidableEq, Repr

/-- The operations complete invokes, in invocation order. -/
inductive Event
| prepare
| acquire
| validWd
| registerWatcher
| runBody
| saveState
| publishVersion
| writeXML
| writeMetadata
deriving DecidableEq, Repr

/-- The publish step, main.go lines 265 to 269. -/
def publishPhase (o : options) (env : RunEnv) (pre : List Event) : List Event × Option String :=
if o.publish != "" then (pre ++ [Event.publishVersion], env.publishErr)
else (pre, none)

/-- The state saving step guarded by saveCondition, main.go lines 258
to 262, followed by the publish step. -/
def savePhase (o : options) (env : RunEnv) (pre : List Event) : List Event × Option String :=
if saveCondition o then
  if env.saveErr.isSome then (pre ++ [Event.saveState], env.saveErr)
  else publishPhase o env (pre ++ [Event.saveState])
else publishPhase o env pre

/-- The body of complete after the deferred writers are registered,
main.go lines 209 to 270: prepare, acquire, working directory check,
deployer selection, optional watcher registration, the run body, then
save and publish; each failure returns at once. -/
def completeBody (o : options) (env : RunEnv) : List Event × Option String :=
if env.prepareErr.isSome then ([Event.prepare], env.prepareErr)
else if env.acquireErr.isSome then ([Event.prepare, Event.acquire], env.acquireErr)
else if env.workDirErr.isSome then
  ([Event.prepare, Event.acquire, Event.validWd], env.workDirErr)
else
  match getDeployer o.deployment with
  | Except.error e => ([Event.prepare, Event.acquire, Event.validWd], some e)
  | Except.ok _ =>
    let pre := [Event.prepare, Event.acquire, Event.validWd]
      ++ (if o.down then [Event.registerWatcher] else []) ++ [Event.runBody]
    if env.runErr.isSome then (pre, env.runErr)
    else savePhase o env pre

/-- complete, main.go lines 191 to 271: when a dump directory is
configured, writeXML and writeMetadata are deferred before any fallible
phase runs, so they run, in that order, on every return path. -/
def complete (o : options) (env : RunEnv) : List Event × Option String :=
let r := completeBody o env
(r.1 ++ (if o.dump != "" then [Event.writeXML, Event.writeMetadata] else []), r.2)

/-- Default of the deprecated check_version_skew flag, main.go line 42. -/
def deprecatedVersionSkewDefault : Bool := true

/-- Default of the check-version-skew flag, main.go line 79. -/
def checkSkewDefault : Bool := true

/-- The override in main, lines 182 to 185: after flag parsing, a false
deprecated flag forces checkSkew to false; the value the run then sees. -/
def mainCheckSkew (deprecatedVersionSkew checkSkew : Bool) : Bool :=
if deprecatedVersionSkew == false then false else checkSkew


/-- C6: for every deployment name in the closed set bash, kops,
kubernetes-anywhere, none, getDeployer returns a deployer handle and no
error; for every string outside that set it returns no handle and an
error identifying the unknown deployment strategy. -/
theorem getDeployer_closed_set (d : String) :
    ((d = "bash" ∨ d = "kops" ∨ d = "kubernetes-anywhere" ∨ d = "none") →
      (getDeployer d).toOption.isSome = true) ∧
    (d ≠ "bash" → d ≠ "kops" → d ≠ "kubernetes-anywhere" → d ≠ "none" →
      getDeployer d = Except.error ("Unknown deployment strategy \"" ++ d ++ "\"")) := by
  constructor
  · rintro (rfl | rfl | rfl | rfl) <;> rfl
  · intro h1 h2 h3 h4
    simp [getDeployer, h1, h2, h3, h4]

/-- Witness for getDeployer_closed_set at the valid name kops and the
invalid name blah. -/
theorem getDeployer_closed_set_witness :
    (getDeployer "kops").toOption.isSome = true ∧
    getDeployer "blah" = Except.error ("Unknown deployment strategy \"blah\"") :=
  ⟨(getDeployer_closed_set "kops").1 (Or.inr (Or.inl rfl)),
   (getDeployer_closed_set "blah").2 (by decide) (by decide) (by decide) (by decide)⟩

/-- C8: at the start of every run both timers are stopped and, if
already fired, drained so the fire value cannot be observed later; the
interrupt timer is then rearmed with the configured timeout exactly
when that timeout is positive, and otherwise both timers are idle. -/
theorem timerSetup_spec (timeout : Nat) (iS tS : TimerState) :
    (timerSetup timeout iS tS).2 = TimerState.idle ∧
    stopAndDrain iS ≠ TimerState.firedUndrained ∧
    stopAndDrain tS ≠ TimerState.firedUndrained ∧
    (0 < timeout → (timerSetup timeout iS tS).1 = TimerState.armed timeout) ∧
    (timeout = 0 → (timerSetup timeout iS tS).1 = TimerState.idle) := by
  cases iS <;> cases tS <;> cases timeout <;>
    simp [timerSetup, stopAndDrain, resetTimer]

/-- Witness for timerSetup_spec starting from the initial
fired-and-undrained state of both timers, with a positive timeout and
with a zero timeout. -/
theorem timerSetup_spec_witness :
    (timerSetup 3 initialTimer initialTimer).1 = TimerState.armed 3 ∧
    (timerSetup 0 initialTimer initialTimer).1 = TimerState.idle ∧
    (timerSetup 0 initialTimer initialTimer).2 = TimerState.idle :=
  ⟨(timerSetup_spec 3 initialTimer initialTimer).2.2.2.1 (by decide),
   (timerSetup_spec 0 initialTimer initialTimer).2.2.2.2 rfl,
   (timerSetup_spec 0 initialTimer initialTimer).1⟩

/-- C10: an explicitly false deprecated check_version_skew flag forces
the skew check off whatever the replacement flag says, both flags
defaulting to true. -/
theorem mainCheckSkew_spec (c : Bool) :
    mainCheckSkew false c = false ∧ mainCheckSkew true c = c ∧
    deprecatedVersionSkewDefault = true ∧ checkSkewDefault = true :=
  ⟨rfl, rfl, rfl, rfl⟩

/-- C2: with a save path configured and the extract strategy enabled
(and no earlier strategy failure, so that Extract runs), a run that is
not bringing the cluster up executes an extract specification that is
exactly one load entry pointing at the save path; a run with federation
true, up true and deployment none loads only the kubeconfig and leaves
the extract specification unchanged. -/
theorem extract_restore_rewrite (o : options) (env : StrategyEnv)
    (hs : o.save ≠ "") (he : env.extractEnabled = true)
    (hb : env.buildEnabled = true → env.buildErr = none)
    (hst : env.stageEnabled = true → env.stageErr = none) :
    (o.up = false →
      (acquireKubernetes o env).executedExtract = some [⟨ExtractMode.load, o.save⟩] ∧
      (acquireKubernetes o env).kubeconfigLoaded = false) ∧
    (o.federation = true → o.up = true → o.deployment = "none" →
      (acquireKubernetes o env).executedExtract = some o.extract ∧
      (acquireKubernetes o env).kubeconfigLoaded = true) := by
  have hb' : (env.buildEnabled && env.buildErr.isSome) = false := by
    cases hbe : env.buildEnabled
    · simp
    · simp [hb hbe]
  have hst' : (env.stageEnabled && env.stageErr.isSome) = false := by
    cases hse : env.stageEnabled
    · simp
    · simp [hst hse]
  constructor
  · intro hup
    simp [acquireKubernetes, hb', hst', he, rewriteForRestore, hs, hup]
  · intro hf hup hd
    simp [acquireKubernetes, hb', hst', he, rewriteForRestore, hs, hf, hup, hd]

/-- Concrete run for the extract rewrite: save path s, not upping. -/
def oC2 : options := ⟨true, "bash", false, "", [], false, "", "s", false⟩

/-- Concrete strategy environment with only Extract enabled. -/
def envC2 : StrategyEnv := ⟨false, none, false, none, true, none⟩

/-- Witness for extract_restore_rewrite on oC2 and envC2. -/
theorem extract_restore_rewrite_witness :
    (acquireKubernetes oC2 envC2).executedExtract = some [⟨ExtractMode.load, "s"⟩] ∧
    (acquireKubernetes oC2 envC2).kubeconfigLoaded = false :=
  (extract_restore_rewrite oC2 envC2 (by decide) rfl (by decide) (by decide)).1 rfl


/-- Concrete options for the extract timing question: save path s, not
upping, so the restore rewrite runs inside the Extract closure. -/
def oC3 : options := ⟨true, "kops", false, "", [], false, "", "s", false⟩

/-- C3 counterexample: with every step of the Extract closure taking
one time unit, the duration recorded for the Extract record is 2, not
the 1 that covering only the extract execution would give — the rewrite
runs inside the timed closure. -/
theorem extract_rewrite_timed_counterexample :
    recordedExtractDuration oC3 (fun _ => 1) = 2 ∧
    recordedExtractDuration oC3 (fun _ => 1) ≠ 1 :=
  ⟨by decide, by decide⟩

/-- C3 amended: whenever the restore rewrite applies, it runs strictly
before the Extract call inside the closure, but the closure is what is
timed, so the recorded Extract duration is the sum of the rewrite
duration and the execution duration. -/
theorem extract_rewrite_before_exec (o : options) (h1 : o.save ≠ "") (h2 : o.up = false) :
    extractClosureSteps o = [ExtractStep.rewrite, ExtractStep.exec] ∧
    (∀ d : ExtractStep → Nat,
      recordedExtractDuration o d = d ExtractStep.rewrite + d ExtractStep.exec) := by
  have hs : (o.save != "") = true := by simpa using h1
  constructor
  · simp [extractClosureSteps, hs, h2]
  · intro d
    simp [recordedExtractDuration, extractClosureSteps, hs, h2]

/-- Witness for extract_rewrite_before_exec at oC3 with unit costs. -/
theorem extract_rewrite_before_exec_witness :
    extractClosureSteps oC3 = [ExtractStep.rewrite, ExtractStep.exec] ∧
    recordedExtractDuration oC3 (fun _ => 2) = 4 :=
  ⟨(extract_rewrite_before_exec oC3 (by decide) rfl).1,
   (extract_rewrite_before_exec oC3 (by decide) rfl).2 (fun _ => 2)⟩

/-- C4 counterexample: with no federation and both teardowns
succeeding, two received interrupt signals produce two teardown
iterations, and neither iteration exits the process — against the claim
of a single teardown followed by an exit with status zero. -/
theorem watcher_reenters_counterexample :
    watcherRun false none none [(), ()] =
      [⟨false, true, none⟩, ⟨false, true, none⟩] ∧
    (watcherRun false none none [(), ()]).length ≠ 1 :=
  ⟨by decide, by decide⟩

/-- C4 amended: the watcher tears down the deployment on every received
signal; when both teardowns succeed it never exits, handling each
signal anew (a second signal re-enters the teardown path), and when a
teardown fails it exits with status 1 on the first signal. -/
theorem watcher_per_signal (fed : Bool) (fe de : Option String) (sigs : List Unit) :
    (∀ out ∈ watcherRun fed fe de sigs, out.deployDownCalled = true) ∧
    (tearDownFailed fed fe de = false →
      watcherRun fed fe de sigs = sigs.map (fun _ => ⟨fed, true, none⟩)) ∧
    (tearDownFailed fed fe de = true → sigs ≠ [] →
      watcherRun fed fe de sigs = [⟨fed, true, some 1⟩]) := by
  have hout : handleSignal fed fe de =
      ⟨fed, true, if tearDownFailed fed fe de = true then some 1 else none⟩ := rfl
  induction sigs with
  | nil =>
    refine ⟨?_, ?_, ?_⟩
    · intro out h
      simp [watcherRun] at h
    · intro _
      simp [watcherRun]
    · intro _ hne
      exact absurd rfl hne
  | cons s rest ih =>
    obtain ⟨ih1, ih2, ih3⟩ := ih
    by_cases h : tearDownFailed fed fe de = true
    · refine ⟨?_, ?_, ?_⟩
      · intro out hmem
        simp [watcherRun, hout, h] at hmem
        simp [hmem]
      · intro habs
        rw [habs] at h
        exact absurd h (by decide)
      · intro _ _
        simp [watcherRun, hout, h]
    · have h' : tearDownFailed fed fe de = false := by
        cases hv : tearDownFailed fed fe de
        · rfl
        · exact absurd hv h
      refine ⟨?_, ?_, ?_⟩
      · intro out hmem
        rw [show watcherRun fed fe de (s :: rest) =
              handleSignal fed fe de :: watcherRun fed fe de rest by
            simp [watcherRun, hout, h']] at hmem
        rcases List.mem_cons.mp hmem with hh | hh
        · rw [hh, hout]
        · exact ih1 out hh
      · intro _
        rw [show watcherRun fed fe de (s :: rest) =
              handleSignal fed fe de :: watcherRun fed fe de rest by
            simp [watcherRun, hout, h']]
        rw [ih2 h', hout, h']
        simp
      · intro habs
        rw [habs] at h'
        exact absurd h' (by decide)

/-- Witness for watcher_per_signal: one signal with a failing primary
teardown exits with status 1. -/
theorem watcher_per_signal_witness :
    watcherRun true (some "fedboom") none [()] = [⟨true, true, some 1⟩] :=
  (watcher_per_signal true (some "fedboom") none [()]).2.2 (by decide) (by decide)

/-- With the phases before deployer selection succeeding and a valid
deployment name, the body of complete reaches the save phase. -/
theorem completeBody_ok (o : options) (env : RunEnv)
    (h1 : env.prepareErr = none) (h2 : env.acquireErr = none) (h3 : env.workDirErr = none)
    (dep : deployer) (hgd : getDeployer o.deployment = Except.ok dep) (h5 : env.runErr = none) :
    completeBody o env = savePhase o env
      ([Event.prepare, Event.acquire, Event.validWd]
        ++ (if o.down then [Event.registerWatcher] else []) ++ [Event.runBody]) := by
  simp [completeBody, h1, h2, h3, h5, hgd]

theorem mem_savePhase (e : Event) (o : options) (env : RunEnv) (pre : List Event)
    (hs : e ≠ Event.saveState) (hp : e ≠ Event.publishVersion) :
    (e ∈ (savePhase o env pre).1 ↔ e ∈ pre) := by
  unfold savePhase publishPhase
  split_ifs <;> simp [hs, hp]

theorem saveState_mem_savePhase (o : options) (env : RunEnv) (pre : List Event) :
    (Event.saveState ∈ (savePhase o env pre).1 ↔
      Event.saveState ∈ pre ∨ saveCondition o = true) := by
  unfold savePhase publishPhase
  split_ifs <;> simp_all
theorem completeBody_no_writes (o : options) (env : RunEnv) :
    Event.writeXML ∉ (completeBody o env).1 ∧
    Event.writeMetadata ∉ (completeBody o env).1 := by
  have hsp : ∀ pre : List Event,
      Event.writeXML ∉ pre → Event.writeMetadata ∉ pre →
      Event.writeXML ∉ (savePhase o env pre).1 ∧
      Event.writeMetadata ∉ (savePhase o env pre).1 := by
    intro pre hx hm
    exact ⟨fun h => hx ((mem_savePhase _ o env pre (by decide) (by decide)).mp h),
           fun h => hm ((mem_savePhase _ o env pre (by decide) (by decide)).mp h)⟩
  unfold completeBody
  split_ifs
  all_goals try simp
  all_goals
    rcases hgd : getDeployer o.deployment with e | dep <;> simp only [hgd] <;>
      first
        | simp
        | (refine hsp _ ?_ ?_ <;> simp)
/-- C7: with a dump directory configured, the XML report and the run
metadata are each written exactly once by complete, on every path,
whatever combination of phases fails. -/
theorem report_written_once (o : options) (env : RunEnv) (h : o.dump ≠ "") :
    (complete o env).1.count Event.writeXML = 1 ∧
    (complete o env).1.count Event.writeMetadata = 1 := by
  obtain ⟨hx, hm⟩ := completeBody_no_writes o env
  have hd : (o.dump != "") = true := by simpa using h
  simp only [complete, hd, if_true]
  rw [List.count_append, List.count_append,
    List.count_eq_zero.mpr hx, List.count_eq_zero.mpr hm]
  constructor <;> rfl

/-- All-success outcome environment for the run phases. -/
def envOk : RunEnv := ⟨none, none, none, none, none, none⟩

/-- Options of a failing run with a dump directory configured: the
deployment name zzz makes deployer selection fail. -/
def oC7 : options := ⟨true, "zzz", false, "d", [], false, "", "", false⟩

/-- Witness for report_written_once: even when deployer selection
fails, both writers run exactly once. -/
theorem report_written_once_witness :
    (complete oC7 envOk).1.count Event.writeXML = 1 ∧
    (complete oC7 envOk).1.count Event.writeMetadata = 1 :=
  report_written_once oC7 envOk (by decide)

/-- C1 counterexample options: save path configured, down, up,
federation all set and deployment none, so the save condition as the
spec words it holds while the guard in the code does not. -/
def oC1 : options := ⟨true, "none", true, "", [], true, "", "s", true⟩

/-- C1 counterexample: on oC1 with every phase succeeding, the run body
completes without error and the save condition as the spec words it is
true, yet saveState is never invoked. -/
theorem saveState_spec_counterexample :
    specSaveCondition oC1 = true ∧
    (complete oC1 envOk).2 = none ∧
    Event.saveState ∉ (complete oC1 envOk).1 :=
  ⟨by decide, by decide, by decide⟩

/-- C1 amended: after the run body completes without error, saveState
is invoked exactly when a save path is configured and either the
cluster was brought up without being torn down, or clusters were
brought up (deployment not none) without the federation control plane
(federation false) — the guard of main.go line 258. -/
theorem saveState_iff (o : options) (env : RunEnv)
    (h1 : env.prepareErr = none) (h2 : env.acquireErr = none) (h3 : env.workDirErr = none)
    (h4 : (getDeployer o.deployment).toOption.isSome = true) (h5 : env.runErr = none) :
    Event.saveState ∈ (complete o env).1 ↔ saveCondition o = true := by
  rcases hgd : getDeployer o.deployment with e | dep
  · rw [hgd] at h4
    simp [Except.toOption] at h4
  · have hsuf : Event.saveState ∉
        (if (o.dump != "") = true then [Event.writeXML, Event.writeMetadata]
         else ([] : List Event)) := by
      split_ifs <;> simp
    simp only [complete]
    rw [completeBody_ok o env h1 h2 h3 dep hgd h5]
    constructor
    · intro hmem
      rcases List.mem_append.mp hmem with hl | hr
      · rcases (saveState_mem_savePhase o env _).mp hl with hpre | hc
        · cases hdn : o.down <;> rw [hdn] at hpre <;> simp at hpre
        · exact hc
      · exact absurd hr hsuf
    · intro hc
      exact List.mem_append.mpr
        (Or.inl ((saveState_mem_savePhase o env _).mpr (Or.inr hc)))

/-- Options on which the code does save: save path set, up without
down, no federation, bash deployment. -/
def oC1w : options := ⟨true, "bash", false, "", [], false, "", "s", true⟩

/-- Witness for saveState_iff at oC1w with all phases succeeding. -/
theorem saveState_iff_witness :
    Event.saveState ∈ (complete oC1w envOk).1 :=
  (saveState_iff oC1w envOk rfl rfl rfl (by decide) rfl).mpr (by decide)

/-- With the phases before registration succeeding, the watcher
registration event occurs exactly when down is configured, whatever the
later phases do. -/
theorem registerWatcher_mem (o : options) (env : RunEnv)
    (h1 : env.prepareErr = none) (h2 : env.acquireErr = none) (h3 : env.workDirErr = none)
    (dep : deployer) (hgd : getDeployer o.deployment = Except.ok dep) :
    (Event.registerWatcher ∈ (completeBody o env).1 ↔ o.down = true) := by
  simp only [completeBody, h1, h2, h3, hgd]
  simp only [Option.isSome_none, Bool.false_eq_true, if_false]
  cases hdn : o.down
  · simp only [hdn, Bool.false_eq_true, if_false]
    split_ifs with hr
    · simp
    · rw [mem_savePhase Event.registerWatcher o env _ (by decide) (by decide)]
      simp
  · simp only [hdn, if_true]
    split_ifs with hr
    · simp
    · rw [mem_savePhase Event.registerWatcher o env _ (by decide) (by decide)]
      simp
/-- C5: once the phases before watcher registration succeed, the
teardown watcher is registered exactly when the run is configured to
bring the cluster down; on each received signal, with federation set
the invocation sequence is FedDown strictly first and then the primary
Down, without federation it is the primary Down alone, whatever errors
the teardowns return, so Down runs after a failed FedDown too; the
trace agrees with the recorded SignalOutcome, and the process exits
with status 1 exactly when one of the attempted teardowns failed. -/
theorem teardown_watcher_spec (o : options) (env : RunEnv) (fe de : Option String)
    (h1 : env.prepareErr = none) (h2 : env.acquireErr = none) (h3 : env.workDirErr = none)
    (h4 : (getDeployer o.deployment).toOption.isSome = true) :
    (Event.registerWatcher ∈ (complete o env).1 ↔ o.down = true) ∧
    (o.federation = true →
      (handleSignalTrace o.federation fe de).1 =
        [TeardownCall.fedDown, TeardownCall.deployDown]) ∧
    (o.federation = false →
      (handleSignalTrace o.federation fe de).1 = [TeardownCall.deployDown]) ∧
    (handleSignalTrace o.federation fe de).2 = handleSignal o.federation fe de ∧
    (handleSignal o.federation fe de).fedDownCalled = o.federation ∧
    (handleSignal o.federation fe de).deployDownCalled = true ∧
    ((handleSignal o.federation fe de).exitStatus = some 1 ↔
      ((o.federation && fe.isSome) || de.isSome) = true) := by
  refine ⟨?_, ?_, ?_, rfl, rfl, rfl, ?_⟩
  · rcases hgd : getDeployer o.deployment with e | dep
    · rw [hgd] at h4
      simp [Except.toOption] at h4
    · have hsuf : Event.registerWatcher ∉
          (if (o.dump != "") = true then [Event.writeXML, Event.writeMetadata]
           else ([] : List Event)) := by
        split_ifs <;> simp
      simp only [complete]
      constructor
      · intro hmem
        rcases List.mem_append.mp hmem with hl | hr
        · exact (registerWatcher_mem o env h1 h2 h3 dep hgd).mp hl
        · exact absurd hr hsuf
      · intro hdn
        exact List.mem_append.mpr
          (Or.inl ((registerWatcher_mem o env h1 h2 h3 dep hgd).mpr hdn))
  · intro hf
    simp [handleSignalTrace, hf]
  · intro hf
    simp [handleSignalTrace, hf]
  · cases o.federation <;> cases fe <;> cases de <;> simp [handleSignal]

/-- Options registering the watcher: down and federation configured,
bash deployment. -/
def oC5 : options := ⟨true, "bash", true, "", [], true, "", "", false⟩

/-- Witness for teardown_watcher_spec: the watcher is registered on
oC5, and on a signal with a failing federation teardown the handler
still invokes the primary Down after FedDown and exits with status 1. -/
theorem teardown_watcher_spec_witness :
    Event.registerWatcher ∈ (complete oC5 envOk).1 ∧
    (handleSignalTrace true (some "fedboom") none).1 =
      [TeardownCall.fedDown, TeardownCall.deployDown] ∧
    (handleSignal true (some "fedboom") none).exitStatus = some 1 := by
  have h := teardown_watcher_spec oC5 envOk (some "fedboom") none rfl rfl rfl (by decide)
  exact ⟨h.1.mpr rfl, h.2.1 rfl, h.2.2.2.2.2.2.mpr (by decide)⟩

/-- C9: acquisition invokes Build, Stage, Extract in that order, a
disabled strategy is skipped and never recorded, and the first enabled
strategy whose wrapped execution fails makes acquisition return that
error without invoking any later strategy. -/
theorem acquire_order_gating (o : options) (env : StrategyEnv) :
    (env.buildEnabled = false →
      "Build" ∉ (acquireKubernetes o env).records.map Prod.fst) ∧
    (env.stageEnabled = false →
      "Stage" ∉ (acquireKubernetes o env).records.map Prod.fst) ∧
    (env.extractEnabled = false →
      "Extract" ∉ (acquireKubernetes o env).records.map Prod.fst ∧
      (acquireKubernetes o env).executedExtract = none) ∧
    (env.buildEnabled = true → env.buildErr.isSome = true →
      (acquireKubernetes o env).err = env.buildErr ∧
      (acquireKubernetes o env).records.map Prod.fst = ["Build"] ∧
      (acquireKubernetes o env).executedExtract = none) ∧
    (¬(env.buildEnabled = true ∧ env.buildErr.isSome = true) →
      env.stageEnabled = true → env.stageErr.isSome = true →
      (acquireKubernetes o env).err = env.stageErr ∧
      (acquireKubernetes o env).records.map Prod.fst =
        (if env.buildEnabled then ["Build"] else []) ++ ["Stage"] ∧
      (acquireKubernetes o env).executedExtract = none) ∧
    (¬(env.buildEnabled = true ∧ env.buildErr.isSome = true) →
      ¬(env.stageEnabled = true ∧ env.stageErr.isSome = true) →
      (acquireKubernetes o env).records.map Prod.fst =
        (if env.buildEnabled then ["Build"] else []) ++
        (if env.stageEnabled then ["Stage"] else []) ++
        (if env.extractEnabled then ["Extract"] else []) ∧
      (acquireKubernetes o env).err =
        (if env.extractEnabled then env.extractErr else none)) := by
  obtain ⟨be, berr, se, serr, ee, eerr⟩ := env
  cases be <;> cases se <;> cases ee <;> cases berr <;> cases serr <;> cases eerr <;>
    simp [acquireKubernetes]

/-- Strategy environment in which Build is enabled and fails while the
later strategies are also enabled. -/
def envC9 : StrategyEnv := ⟨true, some "boom", true, none, true, none⟩

/-- Witness for acquire_order_gating: a failing Build is recorded alone
and Extract is never invoked. -/
theorem acquire_order_gating_witness :
    (acquireKubernetes oC2 envC9).err = some "boom" ∧
    (acquireKubernetes oC2 envC9).records.map Prod.fst = ["Build"] ∧
    (acquireKubernetes oC2 envC9).executedExtract = none :=
  (acquire_order_gating oC2 envC9).2.2.2.1 rfl rfl

end Kubetest
